import Mathlib

/-!
Verification of the MCP server dashboard core (`src/mcp_tui/app.py`): the
server probe state machine (`ServerListScreen.check_server`), the session
registry and tool-invocation callback (`ServerListScreen.make_invoke_callback`),
the schema-driven argument derivation (`ToolInvokeModal.compose` /
`ToolInvokeModal.on_button_pressed`), and the log-view filter
(`LogViewScreen._refresh_log`).

Python strings are modelled as Lean `String`; Python dicts that preserve
insertion order are modelled as association lists (`List (String × _)`);
a Python value that may be `None` is modelled as `Option`.
-/

namespace McpTui

/-- A server definition (`MCPServer` pydantic model): `command`, `args`,
`env`, `url`, `type` are all optional. -/
structure MCPServer where
  name : String
  command : Option String := none
  type : Option String := none
  args : Option (List String) := none
  url : Option String := none
deriving Repr, DecidableEq

/-- Python truthiness of an `Optional[str]`: `None` and `""` are falsy. -/
def optTruthy : Option String → Bool
  | none => false
  | some s => s ≠ ""

/-- Probe status of one server, as painted into the Status column:
`update_status(idx, ...)` writes "[yellow]●[/yellow]" while probing,
"[green]✔[/green]" on success, "[red]✗[/red]" on failure. -/
inductive Status where
  | pending
  | connected
  | failed
deriving Repr, DecidableEq

/-- The markup string `update_status` writes for each status. -/
def statusMarkup : Status → String
  | .pending => "[yellow]●[/yellow]"
  | .connected => "[green]✔[/green]"
  | .failed => "[red]✗[/red]"

/-- A tool descriptor as reported by `session.list_tools()`; only the name
matters to the probe model. -/
structure Tool where
  name : String
deriving Repr, DecidableEq

/-- Final state of one server's probe after `check_server(idx, server)`
returns: the painted status, the contents of the per-server stderr temp
file (`self.server_logs[idx]`), the stored catalog
(`self.server_tools.get(idx, [])`), and whether a live session was stored
in `self.server_sessions` for this index. -/
structure ProbeResult where
  status : Status
  log : String
  tools : List Tool
  hasSession : Bool
deriving Repr, DecidableEq

/-- Outcome of the external HTTP GET (`httpx.AsyncClient.get`): either a
response with a status code, or a raised network error whose formatted
traceback (`traceback.format_exc()`) is written to the log. -/
inductive HttpOutcome where
  | response (statusCode : Nat)
  | networkError (traceback : String)
deriving Repr, DecidableEq

/-- Outcome of the external stdio connect/initialize/list_tools sequence:
on success the reported tools plus whatever stderr the child process wrote
into `errlog`; on failure the captured stderr so far plus the formatted
Python traceback written by the `except` branch. -/
inductive StdioOutcome where
  | ok (tools : List Tool) (captured : String)
  | failure (captured : String) (traceback : String)
deriving Repr, DecidableEq

/-- The HTTP GET issued by the probe: `client.get(server.url, timeout=5)`. -/
structure HttpRequest where
  url : String
  timeout : Nat
deriving Repr, DecidableEq

/-- An HTTP probe: the request it issued and the resulting probe state. -/
structure HttpProbe where
  request : HttpRequest
  result : ProbeResult
deriving Repr, DecidableEq

/-- Sentinel written by the HTTP branch's `finally` block when the stderr
file is still empty. -/
def httpSentinel : String :=
  "No output captured from HTTP health check or Python exception."

/-- Sentinel written by the stdio branch's `finally` block when the stderr
file is still empty. -/
def stdioSentinel : String :=
  "No output captured from process or Python exception."

/-- The HTTP branch of `check_server` (app.py lines 373-400): issue
`client.get(server.url, timeout=5)`; status 200 paints `Connected` and
stores no tools and no session; any other status paints `Failed` and writes
`"HTTP status code: {code}\n"`; a raised network error paints `Failed` and
writes the traceback; the `finally` block writes a sentinel if the file is
still empty. `self.server_tools[idx]` is set to the (empty) `tools` list. -/
def checkHttp (url : String) (o : HttpOutcome) : HttpProbe :=
  let request : HttpRequest := { url := url, timeout := 5 }
  let sl : Status × String :=
    match o with
    | .response code =>
      if code = 200 then (Status.connected, "")
      else (Status.failed, "HTTP status code: " ++ toString code ++ "\n")
    | .networkError tb => (Status.failed, tb)
  let log := if sl.2 = "" then httpSentinel else sl.2
  { request := request
    result := { status := sl.1, log := log, tools := [], hasSession := false } }

/-- The stdio branch of `check_server` (app.py lines 401-441): on success
the tool list and session are stored and `Connected` is painted; on any
exception `Failed` is painted and the traceback appended to the captured
stderr; in both cases the `finally` block writes a sentinel if the file is
still empty. On failure no catalog is stored, so `server_tools.get(idx, [])`
later yields `[]`, and no session is stored. -/
def checkStdio (o : StdioOutcome) : ProbeResult :=
  match o with
  | .ok tools captured =>
    let log := if captured = "" then stdioSentinel else captured
    { status := .connected, log := log, tools := tools, hasSession := true }
  | .failure captured tb =>
    let raw := captured ++ tb
    let log := if raw = "" then stdioSentinel else raw
    { status := .failed, log := log, tools := [], hasSession := false }

/-- The two external outcomes a `check_server` run can observe, supplied as
parameters of the model (the transport library and the network are external
collaborators). -/
structure ProbeEnv where
  httpOutcome : HttpOutcome
  stdioOutcome : StdioOutcome

/-- `ServerListScreen.check_server`: dispatches on
`if not server.command and server.url:` to the HTTP branch, otherwise the
stdio branch. -/
def check_server (server : MCPServer) (env : ProbeEnv) : ProbeResult :=
  if ¬ optTruthy server.command ∧ optTruthy server.url then
    (checkHttp ((server.url).getD "") env.httpOutcome).result
  else
    checkStdio env.stdioOutcome

/-! ## Argument derivation (`ToolInvokeModal`) -/

/-- What the modal reads out of one entry of `schema["properties"]`:
`field_info.get("type")` and `field_info.get("items", {}).get("type")`. -/
structure FieldInfo where
  type : Option String := none
  itemsType : Option String := none
deriving Repr, DecidableEq

/-- A tool's `inputSchema` dict, when it is a non-empty dict: it may or may
not contain a `"properties"` key; `properties` is an insertion-ordered dict
of field name to field info. An absent, non-dict or empty (falsy) schema is
modelled as `none` at the use sites. -/
structure ToolSchema where
  properties : Option (List (String × FieldInfo)) := none
deriving Repr, DecidableEq

/-- A derived argument value: either the raw text or a list of strings
(for array fields). -/
inductive FieldValue where
  | str (s : String)
  | strList (l : List String)
deriving Repr, DecidableEq

/-- `Char`-level model of Python's single-character
`val.replace(',', '\n')`. -/
def replaceCommas (cs : List Char) : List Char :=
  cs.map (fun c => if c = ',' then '\n' else c)

/-- Split a character list at newline characters (Python `str.splitlines`
restricted to `'\n'` terminators; other line terminators do not arise from
`Input` widget values, and a trailing empty piece is dropped downstream by
the emptiness filter exactly as `splitlines` drops it). -/
def splitLines : List Char → List (List Char)
  | [] => [[]]
  | c :: rest =>
    if c = '\n' then [] :: splitLines rest
    else
      match splitLines rest with
      | [] => [[c]]
      | l :: ls => (c :: l) :: ls

/-- Python `str.strip()`: drop whitespace from both ends. -/
def pyStripChars (cs : List Char) : List Char :=
  ((cs.dropWhile Char.isWhitespace).reverse.dropWhile Char.isWhitespace).reverse

/-- Python `str.strip()` on a string. -/
def pyStrip (s : String) : String :=
  String.mk (pyStripChars s.data)

/-- Array-field derivation (app.py line 182):
`[v.strip() for v in val.replace(',', '\n').splitlines() if v.strip()]` —
split the raw text on commas and newlines, strip each piece, keep the
non-empty ones in order. -/
def splitArrayValue (val : String) : List String :=
  (((splitLines (replaceCommas val.data)).map
      (fun l => String.mk (pyStripChars l))).filter (fun s => s ≠ ""))

/-- Per-field value derivation (app.py lines 179-184): a field whose
declared `type` is `"array"` is split; every other field keeps the raw
widget text unchanged. -/
def deriveFieldValue (info : FieldInfo) (val : String) : FieldValue :=
  if info.type = some "array" then .strList (splitArrayValue val)
  else .str val

/-- Derivation over `schema["properties"]` (app.py lines 176-186): iterate
the fields in declaration order, derive one value per field, and stop after
the field named `"prompt"` (the loop body ends with
`if field == "prompt": break`, placed after the assignment, so the
`"prompt"` entry itself is still produced). `raw` gives each field's widget
text (`self.inputs[field].value`). -/
def deriveProps (props : List (String × FieldInfo)) (raw : String → String) :
    List (String × FieldValue) :=
  match props with
  | [] => []
  | (field, info) :: rest =>
    let entry := (field, deriveFieldValue info (raw field))
    if field = "prompt" then [entry]
    else entry :: deriveProps rest raw

/-- The fields `deriveProps` actually visits: the declaration-order list
truncated just after the first field named `"prompt"` (the whole list when
no field is named `"prompt"`). -/
def takeThroughPrompt : List (String × FieldInfo) → List (String × FieldInfo)
  | [] => []
  | (field, info) :: rest =>
    if field = "prompt" then [(field, info)]
    else (field, info) :: takeThroughPrompt rest

/-- Free-form fallback (app.py lines 187-190): one `(key, value)` pair,
where `key = self.inputs["key"].value.strip() or "prompt"` (the stripped
key, defaulting to `"prompt"` when stripping leaves it empty). -/
def deriveNoSchema (rawKey rawValue : String) : List (String × FieldValue) :=
  let key := if pyStrip rawKey = "" then "prompt" else pyStrip rawKey
  [(key, .str rawValue)]

/-- The `values` dict built by `ToolInvokeModal.on_button_pressed` for the
Invoke button (app.py lines 173-190): if the tool's `inputSchema` is a
truthy dict with a `"properties"` key, derive per-field values; otherwise
fall back to the free-form key/value pair. -/
def derive_values (schema : Option ToolSchema) (raw : String → String)
    (rawKey rawValue : String) : List (String × FieldValue) :=
  match schema with
  | some sch =>
    match sch.properties with
    | some props => deriveProps props raw
    | none => deriveNoSchema rawKey rawValue
  | none => deriveNoSchema rawKey rawValue

/-- Python `f"{x}"` of an `Optional[str]`. -/
def pyOptStr : Option String → String
  | none => "None"
  | some s => s

/-- The placeholder text `ToolInvokeModal.compose` gives each field's input
widget (app.py lines 138-144): plain name for `string` fields, a
"comma or newline separated" hint for string arrays, and an
"(unsupported type: ...)" flag for everything else. -/
def fieldPlaceholder (field : String) (info : FieldInfo) : String :=
  if info.type = some "string" then field
  else if info.type = some "array" ∧ info.itemsType = some "string" then
    field ++ " (comma or newline separated)"
  else
    field ++ " (unsupported type: " ++ pyOptStr info.type ++ ")"

/-! ## Invocation dispatch and result normalization
(`ServerListScreen.make_invoke_callback`) -/

/-- One element of `result.content` when the call result's content is a
list: either an object exposing a `text` attribute (whose value, a string,
is appended via `str(c.text)`), or any other object, appended as its
`str(c)` rendering. -/
inductive ContentItem where
  | textItem (text : String)
  | otherItem (stringified : String)
deriving Repr, DecidableEq

/-- The string the loop in `make_invoke_callback` appends for one content
item: `str(c.text)` when the item has a `text` attribute, else `str(c)`. -/
def itemText : ContentItem → String
  | .textItem t => t
  | .otherItem s => s

/-- The shape of a successful `session.call_tool` result as inspected by
`make_invoke_callback`: it has a `content` attribute that is a list, a
`content` attribute that is not a list (returned as `str(result.content)`),
or no `content` attribute at all (returned as `str(result)`). -/
inductive CallPayload where
  | contentList (items : List ContentItem)
  | contentOther (stringified : String)
  | noContent (stringified : String)
deriving Repr, DecidableEq

/-- An exception raised by `session.call_tool`, as rendered by the `except`
branch: `str(e)` and `traceback.format_exc()`. -/
structure InvokeError where
  message : String
  traceback : String
deriving Repr, DecidableEq

/-- Result extraction (app.py lines 544-557): for a list-shaped content,
walk the items accumulating `texts` and join them with `"\n"`; otherwise
return the stringified content or result. -/
def renderResult : CallPayload → String
  | .contentList items =>
    let texts := items.foldl (fun acc c => acc ++ [itemText c]) []
    String.intercalate "\n" texts
  | .contentOther s => s
  | .noContent s => s

/-- The `invoke_tool` closure produced by
`ServerListScreen.make_invoke_callback(session)` (app.py lines 530-561).
`session` is `server_sessions.get(idx)` — `none` whenever no live session
was stored for the server. The transport round-trip is external, so its
outcome (`callOutcome`) is a parameter: a payload on success, an exception
on failure. Every path returns a string; the `except` branch turns a raised
exception into an error string, so the closure itself never raises. The
argument-munging lines 536-541 always forward the `values` dict unchanged
(in this typed model `values` is always a dict), and do not affect the
returned text. -/
def invoke_tool (session : Option Unit) (toolName : String)
    (values : List (String × FieldValue))
    (callOutcome : Except InvokeError CallPayload) : String :=
  match session with
  | none => "No session available for this server."
  | some _ =>
    let _arguments := values
    match callOutcome with
    | .ok payload => renderResult payload
    | .error e =>
      "Error invoking tool: " ++ e.message ++ "\n" ++ e.traceback

/-- `needle` starts `hay` (character lists). -/
def listPrefixOf : List Char → List Char → Bool
  | [], _ => true
  | _ :: _, [] => false
  | a :: as, b :: bs => a = b && listPrefixOf as bs

/-- `needle` occurs contiguously somewhere in `hay` (character lists). -/
def listInfixOf (needle : List Char) : List Char → Bool
  | [] => needle.isEmpty
  | b :: rest => listPrefixOf needle (b :: rest) || listInfixOf needle rest

/-- Substring test: `needle` occurs contiguously in `hay`. -/
def strContains (hay needle : String) : Bool :=
  listInfixOf needle.data hay.data

/-! ## Log filtering (`LogViewScreen._refresh_log`) -/

/-- ASCII case folding of one character, as Python's `re.IGNORECASE`
applies to the patterns and log lines at hand. -/
def lowerChar (c : Char) : Char :=
  if 65 ≤ c.toNat ∧ c.toNat ≤ 90 then Char.ofNat (c.toNat + 32) else c

/-- A compiled case-insensitive regex. Python's `re` module is an external
stdlib collaborator; it is modelled restricted to literal patterns:
compiling case-folds the pattern, and `search` looks for it as a contiguous
case-folded substring of the line. -/
structure CompiledRegex where
  pattern : List Char
deriving Repr, DecidableEq

/-- Model of `re.compile(pattern, re.IGNORECASE)`: `none` models a raised
`re.error` (an invalid pattern — modelled as unbalanced parentheses, e.g.
`re.compile("(")` raises), `some` a compiled case-insensitive matcher. -/
def re_compile (p : String) : Option CompiledRegex :=
  if balancedAux p.data 0 then some ⟨p.data.map lowerChar⟩ else none
where
  /-- Parenthesis balance scan: depth never goes negative and ends at 0. -/
  balancedAux : List Char → Nat → Bool
  | [], d => d = 0
  | c :: rest, d =>
    if c = '(' then balancedAux rest (d + 1)
    else if c = ')' then
      match d with
      | 0 => false
      | d' + 1 => balancedAux rest d'
    else balancedAux rest d

/-- Model of `regex.search(line)` (as a boolean, which is how
`_refresh_log` uses it): the case-folded pattern occurs in the case-folded
line. -/
def re_search (r : CompiledRegex) (line : String) : Bool :=
  listInfixOf r.pattern (line.data.map lowerChar)

/-- The state of a `LogViewScreen` that `_refresh_log` reads and writes:
the captured stdout/stderr lines, the current filter pattern (`""` when no
filter was entered), and the derived `filtered_lines`. -/
structure LogViewState where
  stdout_lines : List String
  stderr_lines : List String
  current_regex : String
  filtered_lines : List String
deriving Repr, DecidableEq

/-- The unfiltered line sequence `_refresh_log` assembles (app.py line 79):
stderr lines, then — only when any stdout was captured — a separator and
the stdout lines. -/
def all_lines (s : LogViewState) : List String :=
  s.stderr_lines ++
    (if s.stdout_lines ≠ [] then "--- STDOUT ---" :: s.stdout_lines else [])

/-- The filter core of `_refresh_log` (app.py lines 80-88): a falsy (empty)
pattern keeps all lines; otherwise compile the pattern case-insensitively
and keep the lines it matches; a compile error is caught and all lines are
kept. -/
def applyFilter (pattern : String) (lines : List String) : List String :=
  if pattern ≠ "" then
    match re_compile pattern with
    | some r => lines.filter (fun line => re_search r line)
    | none => lines
  else lines

/-- `LogViewScreen._refresh_log`: recompute `filtered_lines` from the
captured lines and the current pattern. (The widget additionally displays a
`"(No log lines match filter)"` placeholder when the result is empty;
`filtered_lines` itself is stored unfiltered of that placeholder.) -/
def refresh_log (s : LogViewState) : LogViewState :=
  { s with filtered_lines := applyFilter s.current_regex (all_lines s) }

/-! ## Helper lemmas -/

/-- Appending to a string whose data is non-empty stays non-empty. -/
theorem append_ne_empty_left (s t : String) (h : s.data ≠ []) : s ++ t ≠ "" := by
  intro he
  apply h
  have hd : (s ++ t).data = ("" : String).data := by rw [he]
  rw [String.data_append] at hd
  exact (List.append_eq_nil.mp hd).1

/-- The empty needle is an infix of every list. -/
theorem listInfixOf_nil (h : List Char) : listInfixOf [] h = true := by
  cases h <;> simp [listInfixOf, listPrefixOf, List.isEmpty]

/-- A prefix match survives extending the haystack on the right. -/
theorem listPrefixOf_append (n h s : List Char) (hp : listPrefixOf n h = true) :
    listPrefixOf n (h ++ s) = true := by
  induction n generalizing h with
  | nil => simp [listPrefixOf]
  | cons a as ih =>
    cases h with
    | nil => simp [listPrefixOf] at hp
    | cons b bs =>
      simp only [listPrefixOf, Bool.and_eq_true, decide_eq_true_eq] at hp
      simp only [List.cons_append, listPrefixOf, Bool.and_eq_true, decide_eq_true_eq]
      exact ⟨hp.1, ih bs hp.2⟩

/-- An infix occurrence survives extending the haystack on the right. -/
theorem listInfixOf_append_right (n h s : List Char) (hi : listInfixOf n h = true) :
    listInfixOf n (h ++ s) = true := by
  induction h with
  | nil =>
    simp only [listInfixOf, List.isEmpty_iff] at hi
    subst hi
    simpa using listInfixOf_nil s
  | cons b bs ih =>
    simp only [listInfixOf, Bool.or_eq_true] at hi
    rcases hi with hp | hin
    · simp only [List.cons_append, listInfixOf, Bool.or_eq_true]
      exact Or.inl (listPrefixOf_append n (b :: bs) s hp)
    · simp only [List.cons_append, listInfixOf, Bool.or_eq_true]
      exact Or.inr (ih hin)

/-- An infix occurrence survives extending the haystack on the left. -/
theorem listInfixOf_append_left (n pre h : List Char) (hi : listInfixOf n h = true) :
    listInfixOf n (pre ++ h) = true := by
  induction pre with
  | nil => simpa using hi
  | cons a as ih =>
    simp only [List.cons_append, listInfixOf, Bool.or_eq_true]
    exact Or.inr ih

/-- The accumulating `texts` loop of `make_invoke_callback` is `map`. -/
theorem foldl_texts (items : List ContentItem) (acc : List String) :
    items.foldl (fun a c => a ++ [itemText c]) acc = acc ++ items.map itemText := by
  induction items generalizing acc with
  | nil => simp
  | cons hd tl ih => simp [List.foldl, ih]

/-! ## Claim theorems -/

/-- C1: an invocation attempted against a server that has no live session
(HTTP probe — any outcome — or a failed stdio probe stores no session, and
`make_invoke_callback` receives `session = None`) returns the error string
`"No session available for this server."`, which carries the
`"No session"` text; as a total function of the modelled external outcomes
it returns a result on every path rather than raising. -/
theorem claim1_no_session (url : String) (o : HttpOutcome)
    (captured tb toolName : String) (values : List (String × FieldValue))
    (callOutcome : Except InvokeError CallPayload) :
    (checkHttp url o).result.hasSession = false
    ∧ (checkStdio (.failure captured tb)).hasSession = false
    ∧ invoke_tool none toolName values callOutcome
        = "No session available for this server."
    ∧ strContains (invoke_tool none toolName values callOutcome)
        "No session" = true := by
  refine ⟨rfl, rfl, rfl, ?_⟩
  have h : invoke_tool none toolName values callOutcome
      = "No session available for this server." := rfl
  rw [h]
  decide

/-- C2: the HTTP probe issues `GET server.url` with `timeout=5`; status
200 yields `Connected` with an empty tool catalog; any other status code
yields `Failed` with `"HTTP status code: {code}\n"` logged, and a network
error yields `Failed` with its detail — the formatted traceback — written
to the log buffer; in particular a 500 response leaves `"500"` in the log
buffer. -/
theorem claim2_http_probe (url tb : String) (code : Nat) (hne : code ≠ 200) :
    (checkHttp url (.response code)).request = { url := url, timeout := 5 }
    ∧ (checkHttp url (.response 200)).result.status = Status.connected
    ∧ (checkHttp url (.response 200)).result.tools = []
    ∧ (checkHttp url (.response code)).result.status = Status.failed
    ∧ (checkHttp url (.response code)).result.log
        = "HTTP status code: " ++ toString code ++ "\n"
    ∧ (checkHttp url (.networkError tb)).result.status = Status.failed
    ∧ strContains (checkHttp url (.response 500)).result.log "500" = true
    ∧ (tb ≠ "" → (checkHttp url (.networkError tb)).result.log = tb) := by
  refine ⟨rfl, rfl, rfl, ?_, ?_, rfl, ?_, ?_⟩
  · simp [checkHttp, hne]
  · have hd : ("HTTP status code: " ++ toString code ++ "\n") ≠ "" := by
      apply append_ne_empty_left
      rw [String.data_append]
      simp
    simp [checkHttp, hne, hd]
  · have h : (checkHttp url (.response 500)).result.log
        = "HTTP status code: " ++ toString 500 ++ "\n" := rfl
    rw [h]
    decide
  · intro htb
    simp [checkHttp, htb]

/-- Witness for C2 at `code = 500` and the non-empty traceback
`"boom"`. -/
theorem claim2_http_probe_witness :
    (checkHttp "http://x" (.response 500)).request = { url := "http://x", timeout := 5 }
    ∧ (checkHttp "http://x" (.response 200)).result.status = Status.connected
    ∧ (checkHttp "http://x" (.response 200)).result.tools = []
    ∧ (checkHttp "http://x" (.response 500)).result.status = Status.failed
    ∧ (checkHttp "http://x" (.response 500)).result.log
        = "HTTP status code: " ++ toString 500 ++ "\n"
    ∧ (checkHttp "http://x" (.networkError "boom")).result.status = Status.failed
    ∧ strContains (checkHttp "http://x" (.response 500)).result.log "500" = true
    ∧ (checkHttp "http://x" (.networkError "boom")).result.log = "boom" := by
  have h := claim2_http_probe "http://x" "boom" 500 (by decide)
  exact ⟨h.1, h.2.1, h.2.2.1, h.2.2.2.1, h.2.2.2.2.1, h.2.2.2.2.2.1,
    h.2.2.2.2.2.2.1, h.2.2.2.2.2.2.2 (by decide)⟩

/-- C3: a field declared `type: array` with `items.type: string` derives
the raw text split on commas and newlines, trimmed, with empty tokens
dropped, in order; in particular `"a, b\nc"` derives `["a", "b", "c"]`. -/
theorem claim3_array_split (info : FieldInfo) (val : String)
    (ht : info.type = some "array") (hi : info.itemsType = some "string") :
    deriveFieldValue info val = FieldValue.strList (splitArrayValue val)
    ∧ splitArrayValue "a, b\nc" = ["a", "b", "c"] := by
  refine ⟨?_, by decide⟩
  simp [deriveFieldValue, ht]

/-- Witness for C3 at a concrete string-array field and `"a, b\nc"`. -/
theorem claim3_array_split_witness :
    deriveFieldValue ⟨some "array", some "string"⟩ "a, b\nc"
      = FieldValue.strList (splitArrayValue "a, b\nc")
    ∧ splitArrayValue "a, b\nc" = ["a", "b", "c"] :=
  claim3_array_split ⟨some "array", some "string"⟩ "a, b\nc" rfl rfl

/-- C4 counterexample: the claim says derivation over a schema's
`properties` produces one entry per declared field, but the loop in
`on_button_pressed` breaks after the field named `"prompt"`: a schema
declaring `prompt` followed by `x` (both strings) derives only one entry,
not two. -/
theorem claim4_counterexample :
    ¬ ((deriveProps
        [("prompt", ⟨some "string", none⟩), ("x", ⟨some "string", none⟩)]
        (fun _ => "hello")).length = 2) := by
  decide

/-- C4 amended: argument derivation iterates the declared fields in
declaration order but stops after the field named `"prompt"` (inclusive),
producing one entry per visited field; each string-typed field derives
exactly the raw text (e.g. `"hello"` derives `"hello"`). -/
theorem claim4_amended (props : List (String × FieldInfo))
    (raw : String → String) (info : FieldInfo) (val : String)
    (hs : info.type = some "string") :
    deriveProps props raw
      = (takeThroughPrompt props).map
          (fun fi => (fi.1, deriveFieldValue fi.2 (raw fi.1)))
    ∧ deriveFieldValue info val = FieldValue.str val
    ∧ deriveFieldValue ⟨some "string", none⟩ "hello" = FieldValue.str "hello" := by
  refine ⟨?_, ?_, by decide⟩
  · induction props with
    | nil => rfl
    | cons hd tl ih =>
      obtain ⟨field, finfo⟩ := hd
      by_cases hf : field = "prompt" <;>
        simp [deriveProps, takeThroughPrompt, hf, ih]
  · simp [deriveFieldValue, hs]

/-- Witness for C4 amended at the two-field schema and raw text
`"hello"`. -/
theorem claim4_amended_witness :
    deriveProps [("prompt", ⟨some "string", none⟩), ("x", ⟨some "string", none⟩)]
        (fun _ => "hello")
      = (takeThroughPrompt
          [("prompt", ⟨some "string", none⟩), ("x", ⟨some "string", none⟩)]).map
          (fun fi => (fi.1, deriveFieldValue fi.2 ((fun _ => "hello") fi.1)))
    ∧ deriveFieldValue ⟨some "string", none⟩ "hello" = FieldValue.str "hello"
    ∧ deriveFieldValue ⟨some "string", none⟩ "hello" = FieldValue.str "hello" :=
  claim4_amended
    [("prompt", ⟨some "string", none⟩), ("x", ⟨some "string", none⟩)]
    (fun _ => "hello") ⟨some "string", none⟩ "hello" rfl

/-- C5: with an absent schema or a schema without `properties`, derivation
falls back to a single `(key, value)` pair, and a blank (empty or
whitespace-only) key defaults to `"prompt"`. -/
theorem claim5_no_schema_fallback (raw : String → String)
    (rawKey rawValue : String) (hblank : pyStrip rawKey = "") :
    derive_values none raw rawKey rawValue = deriveNoSchema rawKey rawValue
    ∧ derive_values (some { properties := none }) raw rawKey rawValue
        = deriveNoSchema rawKey rawValue
    ∧ (deriveNoSchema rawKey rawValue).length = 1
    ∧ deriveNoSchema rawKey rawValue = [("prompt", FieldValue.str rawValue)] := by
  refine ⟨rfl, rfl, rfl, ?_⟩
  simp [deriveNoSchema, hblank]

/-- Witness for C5 at a whitespace-only key. -/
theorem claim5_no_schema_fallback_witness :
    derive_values none (fun _ => "") "  " "v" = deriveNoSchema "  " "v"
    ∧ derive_values (some { properties := none }) (fun _ => "") "  " "v"
        = deriveNoSchema "  " "v"
    ∧ (deriveNoSchema "  " "v").length = 1
    ∧ deriveNoSchema "  " "v" = [("prompt", FieldValue.str "v")] :=
  claim5_no_schema_fallback (fun _ => "") "  " "v" (by decide)

/-- C6 counterexample: the claim says a field of declared type `array`
with non-string items passes the raw text through unchanged, but the
invoke handler splits every `array`-typed field regardless of its items
type: an `array`-of-`number` field with raw text `"1, 2"` derives the
list `["1", "2"]`, not the raw string. -/
theorem claim6_counterexample :
    deriveFieldValue ⟨some "array", some "number"⟩ "1, 2"
        = FieldValue.strList ["1", "2"]
    ∧ deriveFieldValue ⟨some "array", some "number"⟩ "1, 2"
        ≠ FieldValue.str "1, 2" := by
  decide

/-- The `"(unsupported type: ...)"` placeholder always carries the
`"unsupported"` flag text, whatever the field name and type rendering. -/
theorem unsupported_flag_contained (field t : String) :
    strContains (field ++ " (unsupported type: " ++ t ++ ")")
      "unsupported" = true := by
  unfold strContains
  rw [String.data_append, String.data_append, String.data_append,
    List.append_assoc, List.append_assoc]
  apply listInfixOf_append_left
  apply listInfixOf_append_right
  decide

/-- C6 amended: a field whose declared type is neither `string` nor
`array` keeps its raw text unchanged in the derived arguments while being
flagged `"unsupported"` in its input placeholder; an `array`-typed field
is split like a string array regardless of its declared items type, and
when its items type is not `string` its input placeholder still carries
the `"unsupported"` flag. -/
theorem claim6_amended (info arrInfo : FieldInfo) (field val : String)
    (hns : info.type ≠ some "string") (hna : info.type ≠ some "array")
    (harr : arrInfo.type = some "array") :
    deriveFieldValue info val = FieldValue.str val
    ∧ strContains (fieldPlaceholder field info) "unsupported" = true
    ∧ deriveFieldValue arrInfo val = FieldValue.strList (splitArrayValue val)
    ∧ (arrInfo.itemsType ≠ some "string" →
        strContains (fieldPlaceholder field arrInfo) "unsupported" = true) := by
  refine ⟨?_, ?_, ?_, ?_⟩
  · simp [deriveFieldValue, hna]
  · have hp : fieldPlaceholder field info
        = field ++ " (unsupported type: " ++ pyOptStr info.type ++ ")" := by
      simp [fieldPlaceholder, hns, hna]
    rw [hp]
    exact unsupported_flag_contained field (pyOptStr info.type)
  · simp [deriveFieldValue, harr]
  · intro hni
    have hp : fieldPlaceholder field arrInfo
        = field ++ " (unsupported type: " ++ pyOptStr arrInfo.type ++ ")" := by
      have hnstr : arrInfo.type ≠ some "string" := by
        rw [harr]
        decide
      simp [fieldPlaceholder, hnstr, hni]
    rw [hp]
    exact unsupported_flag_contained field (pyOptStr arrInfo.type)

/-- Witness for C6 amended at a `number`-typed field and an
`array`-of-`number` field. -/
theorem claim6_amended_witness :
    deriveFieldValue ⟨some "number", none⟩ "v" = FieldValue.str "v"
    ∧ strContains (fieldPlaceholder "count" ⟨some "number", none⟩)
        "unsupported" = true
    ∧ deriveFieldValue ⟨some "array", some "number"⟩ "v"
        = FieldValue.strList (splitArrayValue "v")
    ∧ strContains (fieldPlaceholder "count" ⟨some "array", some "number"⟩)
        "unsupported" = true := by
  have h := claim6_amended ⟨some "number", none⟩ ⟨some "array", some "number"⟩
    "count" "v" (by decide) (by decide) rfl
  exact ⟨h.1, h.2.1, h.2.2.1, h.2.2.2 (by decide)⟩

/-- C7: filtering with an empty pattern leaves the assembled buffer
unchanged; an invalid pattern (one `re.compile` rejects) fails soft and
also leaves it unchanged; and matching is case-insensitive — two lines
that agree up to letter case are matched identically. -/
theorem claim7_filter_soft (s : LogViewState) (p : String)
    (r : CompiledRegex) (l₁ l₂ : String)
    (hinv : re_compile p = none)
    (hcase : l₁.data.map lowerChar = l₂.data.map lowerChar) :
    (refresh_log { s with current_regex := "" }).filtered_lines = all_lines s
    ∧ (refresh_log { s with current_regex := p }).filtered_lines = all_lines s
    ∧ re_search r l₁ = re_search r l₂ := by
  refine ⟨rfl, ?_, ?_⟩
  · by_cases hp : p = "" <;>
      simp [refresh_log, applyFilter, all_lines, hp, hinv]
  · unfold re_search
    rw [hcase]

/-- Witness for C7 at the invalid pattern `"("` and the case-swapped pair
`"A"` / `"a"`. -/
theorem claim7_filter_soft_witness :
    (refresh_log ⟨[], ["A1"], "", []⟩).filtered_lines
      = all_lines ⟨[], ["A1"], "x", []⟩
    ∧ (refresh_log ⟨[], ["A1"], "(", []⟩).filtered_lines
      = all_lines ⟨[], ["A1"], "x", []⟩
    ∧ re_search ⟨['a']⟩ "A" = re_search ⟨['a']⟩ "a" :=
  claim7_filter_soft ⟨[], ["A1"], "x", []⟩ "(" ⟨['a']⟩ "A" "a"
    (by decide) (by decide)

/-- C8: `_refresh_log` never mutates the underlying captured buffers (it
only rewrites `filtered_lines`), and the filter is idempotent — filtering
the already-filtered output with the same pattern returns it unchanged, and
re-running the refresh is a no-op on the whole state. -/
theorem claim8_filter_pure_idempotent (s : LogViewState) (p : String)
    (lines : List String) :
    (refresh_log s).stderr_lines = s.stderr_lines
    ∧ (refresh_log s).stdout_lines = s.stdout_lines
    ∧ (refresh_log s).current_regex = s.current_regex
    ∧ applyFilter p (applyFilter p lines) = applyFilter p lines
    ∧ refresh_log (refresh_log s) = refresh_log s := by
  refine ⟨rfl, rfl, rfl, ?_, rfl⟩
  by_cases hp : p = ""
  · simp [applyFilter, hp]
  · cases hre : re_compile p with
    | none => simp [applyFilter, hp, hre]
    | some r => simp [applyFilter, hp, hre, List.filter_filter]

/-- C9: every probe exits with a non-empty log buffer (a sentinel is
written when nothing was captured), and in particular a stdio probe whose
spawn/connect sequence fails ends `Failed` with a non-empty buffer. -/
theorem claim9_log_nonempty (server : MCPServer) (env : ProbeEnv)
    (captured tb : String) :
    (check_server server env).log ≠ ""
    ∧ (checkStdio (.failure captured tb)).status = Status.failed
    ∧ (checkStdio (.failure captured tb)).log ≠ "" := by
  refine ⟨?_, rfl, ?_⟩
  · unfold check_server
    split
    · cases ho : env.httpOutcome with
      | response code =>
        by_cases h200 : code = 200
        · simp [checkHttp, ho, h200, httpSentinel]
        · by_cases hlog : ("HTTP status code: " ++ toString code ++ "\n") = ""
          · simp [checkHttp, ho, h200, hlog, httpSentinel]
          · simp [checkHttp, ho, h200, hlog]
      | networkError t =>
        by_cases ht : t = "" <;> simp [checkHttp, ho, ht, httpSentinel]
    · cases hs : env.stdioOutcome with
      | ok tools cap =>
        by_cases hc : cap = "" <;> simp [checkStdio, hs, hc, stdioSentinel]
      | failure cap t =>
        by_cases hct : cap ++ t = "" <;> simp [checkStdio, hs, hct, stdioSentinel]
  · unfold checkStdio
    by_cases hct : captured ++ tb = "" <;> simp [hct, stdioSentinel]

/-- C10: a call result whose content is a list is displayed as the
newline-joined concatenation of each item's `text` field in list order;
an item without a `text` field contributes its `str(...)` rendering in
the same position. -/
theorem claim10_content_join (items : List ContentItem)
    (toolName t s : String) (values : List (String × FieldValue)) :
    invoke_tool (some ()) toolName values (.ok (.contentList items))
      = String.intercalate "\n" (items.map itemText)
    ∧ itemText (.textItem t) = t
    ∧ itemText (.otherItem s) = s := by
  refine ⟨?_, rfl, rfl⟩
  show renderResult (.contentList items) = _
  simp only [renderResult]
  rw [foldl_texts]
  simp

end McpTui
